import Mathlib

/-!
Verification of the thicom DICOM anonymization pipeline.

This file gives a shallow embedding, in Lean 4, of the pure decision logic
of the repository (anonymizer.py, components.py, thicom/preprocess.py,
thicom/converter.py) and proves or refutes the specification claims about it.

Filesystem, the `dicom` library and `libmagic` are side effects external to
the repository; they are modelled as explicit oracle parameters (for example
the list of DICOM images found under a directory, or whether saving a file
raises ValueError).  Python strings are modelled as Lean `String`
(`List Char`), Python floats appearing in the similarity ratio and the depth
average are modelled as `Rat`.
-/

/-- Python str.lower, modelled per character (the names involved are ASCII). -/
def pyLower (s : String) : String := ⟨s.data.map Char.toLower⟩

/-- Boolean test that `pre` is a prefix of `l` (used for substring search). -/
def isPrefixCh : List Char → List Char → Bool
  | [], _ => true
  | _ :: _, [] => false
  | a :: as, b :: bs => a == b && isPrefixCh as bs

/-- Boolean substring search on character lists. -/
def containsCh (sub : List Char) : List Char → Bool
  | [] => isPrefixCh sub []
  | c :: cs => isPrefixCh sub (c :: cs) || containsCh sub cs

/-- Python `sub in s` substring test. -/
def pyIn (sub s : String) : Bool := containsCh sub.data s.data

/-- Python `s.replace(pat, repl)`: replace every non-overlapping occurrence of
`pat`, scanning left to right.  Fuelled recursion; the fuel `s.length` is
always enough because every step consumes at least one character.  (Python
treats an empty pattern specially; all uses in this file have `pat` nonempty,
enforced by hypotheses where the behaviour matters.) -/
def replaceCh : Nat → List Char → List Char → List Char → List Char
  | 0, _, _, s => s
  | _ + 1, _, _, [] => []
  | f + 1, pat, repl, c :: cs =>
    if isPrefixCh pat (c :: cs) && !pat.isEmpty then
      repl ++ replaceCh f pat repl ((c :: cs).drop pat.length)
    else c :: replaceCh f pat repl cs

/-- Python `s.replace(pat, repl)` on strings. -/
def pyReplace (s pat repl : String) : String :=
  ⟨replaceCh s.data.length pat.data repl.data s.data⟩

/-- Python `s[:-1]`: the string without its final character. -/
def pyDropLast (s : String) : String := ⟨s.data.dropLast⟩

/-- Python `os.path.basename` (also `s.split("/")[-1]`): the part of the
path after the last slash. -/
def pyBasename (s : String) : String :=
  ⟨(s.data.reverse.takeWhile (fun c => c != '/')).reverse⟩

/-- Python `s.count("/")` as used for path depths. -/
def countSlashes (s : String) : Nat := s.data.count '/'

/-!
## DirectoryValidator: marker-count classification (claim C4)

Embedding of the marker-count part of `Preprocessor.pre_check`
(thicom/preprocess.py, report-only mode `action=False`).  For one patient
directory the code runs `find_dcmdir(patient_dir)` and then classifies the
patient from the resulting list of DICOMDIR directories: no DICOMDIR at all,
or only DaT-scan DICOMDIRs, puts the patient in `issues["none"]`; more than
one non-DaT DICOMDIR puts it in `issues["many"]`; exactly one non-DaT
DICOMDIR appends it to the `normal` list.  The input below is the list of
directory paths returned by `find_dcmdir` (an oracle for the filesystem
walk).
-/

/-- Outcome of the marker-count classification in `pre_check`. -/
inductive MarkerClass
  | missingMarker
  | ok
  | multipleMarkers
deriving DecidableEq

/-- Test from pre_check line 329: the substring dat occurring in the
lowercased basename of the dicomdir path. -/
def isDatMarker (d : String) : Bool := pyIn "dat" (pyLower (pyBasename d))

/-- Marker-count classification of one patient in report-only mode,
translated from `Preprocessor.pre_check` (lines 322-381): the `continue`
chain on `dicomdirs` and the `dats` counter. -/
def classify_markers (dicomdirs : List String) : MarkerClass :=
  if dicomdirs.isEmpty then .missingMarker
  else
    let dats := (dicomdirs.filter isDatMarker).length
    if dicomdirs.length - dats = 0 then .missingMarker
    else if dicomdirs.length - dats > 1 then .multipleMarkers
    else .ok

lemma length_filter_add_length_filter_not (p : α → Bool) (l : List α) :
    (l.filter p).length + (l.filter (fun a => !p a)).length = l.length := by
  induction l with
  | nil => rfl
  | cons a l ih =>
    by_cases h : p a <;> simp [List.filter_cons, h, ← ih] <;> omega

/-- C4: after auxiliary (DaT) markers are filtered out, a patient directory is
classified by its remaining marker count: 0 non-auxiliary markers means
missing-marker, exactly 1 means a normal ("ok") patient, and 2 or more mean
multiple-markers; the three outcomes are mutually exclusive and exhaustive. -/
theorem classify_markers_by_nonaux_count (dicomdirs : List String) :
    (classify_markers dicomdirs = .missingMarker ↔
      (dicomdirs.filter (fun d => !isDatMarker d)).length = 0) ∧
    (classify_markers dicomdirs = .ok ↔
      (dicomdirs.filter (fun d => !isDatMarker d)).length = 1) ∧
    (classify_markers dicomdirs = .multipleMarkers ↔
      2 ≤ (dicomdirs.filter (fun d => !isDatMarker d)).length) := by
  have hsplit := length_filter_add_length_filter_not isDatMarker dicomdirs
  unfold classify_markers
  by_cases hnil : dicomdirs.isEmpty
  · rw [List.isEmpty_iff] at hnil
    subst hnil
    simp
  · simp only [hnil, if_false]
    rw [List.isEmpty_iff] at hnil
    have hlen : 0 < dicomdirs.length := List.length_pos.mpr hnil
    set dats := (dicomdirs.filter isDatMarker).length with hd
    set rest := (dicomdirs.filter (fun d => !isDatMarker d)).length with hr
    rcases Nat.lt_trichotomy rest 1 with h1 | h1 | h1
    · have h0 : rest = 0 := by omega
      have : dicomdirs.length - dats = 0 := by omega
      simp [this, h0]
    · have : ¬(dicomdirs.length - dats = 0) := by omega
      have h2 : ¬(dicomdirs.length - dats > 1) := by omega
      simp [this, h2, h1]
    · have : ¬(dicomdirs.length - dats = 0) := by omega
      have h2 : dicomdirs.length - dats > 1 := by omega
      simp [this, h2]
      omega

/-!
## DirectoryValidator: depth-outlier classification (claim C3)

Embedding of `check_depth` and `average_depth` (components.py, lines
204-240) and of the call site in `Preprocessor.pre_check` (line 443):
`check_depth(normal, normal_depth=round(average_depth(normal)), relative=True)`.
Both functions apply `os.path.relpath` to their inputs; on the
already-normalized relative paths used below, `relpath` is the identity and
is modelled as such (`relpathModel`).  Python true division of the depth sum
is modelled by `Rat`; the builtin `round` is round-half-to-even.
-/

/-- Model of `os.path.relpath` on already-normalized relative paths (no
filesystem): the identity. -/
def relpathModel (s : String) : String := s

/-- components.check_depth: the paths whose relative depth (number of
slashes) differs from `normalDepth`. -/
def check_depth (dirsToCheck : List String) (normalDepth : Int) : List String :=
  dirsToCheck.filter (fun d => decide ((countSlashes (relpathModel d) : Int) ≠ normalDepth))

/-- components.average_depth: mean of the relative depths, a Python float
modelled as a rational. -/
def average_depth (listOfDirs : List String) : Rat :=
  ((listOfDirs.map (fun d => (countSlashes (relpathModel d) : Rat))).sum) / (listOfDirs.length : Rat)

/-- Python 3 builtin `round` to an integer: nearest, ties to even. -/
def pythonRound (q : Rat) : Int :=
  let f := Int.floor q
  let r := q - (f : Rat)
  if r < 1 / 2 then f
  else if 1 / 2 < r then f + 1
  else if f % 2 = 0 then f else f + 1

/-- Population of marker paths at relative depths [2,2,2,5] from the claim. -/
def depthPop : List String :=
  ["NPD/p1/DICOMDIR", "NPD/p2/DICOMDIR", "PD/p3/DICOMDIR", "PD/p4/a/b/c/DICOMDIR"]

/-- C3 counterexample: on the population at relative depths [2,2,2,5] the
average depth is 11/4, which Python rounds to 3, not 2, so `check_depth`
computed against the rounded average flags all four paths — the three
depth-2 paths included — and not only the depth-5 outlier. -/
lemma average_depthPop : average_depth depthPop = 11 / 4 := by
  have c1 : countSlashes "NPD/p1/DICOMDIR" = 2 := by decide
  have c2 : countSlashes "NPD/p2/DICOMDIR" = 2 := by decide
  have c3 : countSlashes "PD/p3/DICOMDIR" = 2 := by decide
  have c4 : countSlashes "PD/p4/a/b/c/DICOMDIR" = 5 := by decide
  simp [average_depth, depthPop, relpathModel, c1, c2, c3, c4]
  norm_num

lemma pythonRound_pop : pythonRound (11 / 4 : Rat) = 3 := by
  have hf : Int.floor (11 / 4 : Rat) = 2 := by
    rw [Int.floor_eq_iff]
    norm_num
  simp only [pythonRound, hf]
  norm_num

theorem check_depth_pop_flags_everything :
    check_depth depthPop (pythonRound (average_depth depthPop)) = depthPop ∧
    check_depth depthPop (pythonRound (average_depth depthPop)) ≠ ["PD/p4/a/b/c/DICOMDIR"] := by
  rw [average_depthPop, pythonRound_pop]
  constructor <;> decide

/-- C3 amended: a path is flagged wrong-depth by `check_depth` against the
rounded average exactly when its relative depth differs from the rounded
average depth of the whole population; on the depths [2,2,2,5] the average
2.75 rounds to 3, so all four paths are flagged, not only the depth-5 one. -/
theorem check_depth_iff_differs_from_rounded_average :
    (∀ (dirs : List String) (d : String),
      d ∈ check_depth dirs (pythonRound (average_depth dirs)) ↔
        d ∈ dirs ∧ (countSlashes d : Int) ≠ pythonRound (average_depth dirs)) ∧
    pythonRound (average_depth depthPop) = 3 ∧
    check_depth depthPop (pythonRound (average_depth depthPop)) = depthPop := by
  have h3 : pythonRound (average_depth depthPop) = 3 := by
    rw [average_depthPop, pythonRound_pop]
  refine ⟨fun dirs d => ?_, h3, ?_⟩
  · simp [check_depth, relpathModel, List.mem_filter]
  · rw [h3]
    decide

/-!
## AliasStore: the OrderedDict of name-to-alias mappings (claims C6, C7, C8)

The anonymizer dictionary `self.dct` is a Python `OrderedDict` mapping real
patient names to aliases.  It is modelled as an association list in
insertion order.  Item assignment updates an existing key in place (keeping
its position) and appends a new key at the end, exactly as `OrderedDict`
does.
-/

/-- An OrderedDict of strings: association list in insertion order. -/
abbrev ODict := List (String × String)

/-- Python `self.dct.keys()`. -/
def odKeys (d : ODict) : List String := d.map Prod.fst

/-- OrderedDict item assignment `d[k] = v`: update in place if the key is
present, append otherwise. -/
def odSet (d : ODict) (k v : String) : ODict :=
  if k ∈ odKeys d then d.map (fun p => if p.1 = k then (k, v) else p)
  else d ++ [(k, v)]

/-- OrderedDict `d.update(pairs)`: sequential item assignments. -/
def odUpdate (d : ODict) (pairs : List (String × String)) : ODict :=
  pairs.foldl (fun acc p => odSet acc p.1 p.2) d

/-- Alias tokens `Subject<last+1> .. Subject<last+n>`, from
`anonymizer.py` line 291 (`update_dict`) and line 222 (`create_anon_dict`). -/
def subjectIds (last n : Nat) : List String :=
  (List.range n).map (fun i => "Subject" ++ toString (last + 1 + i))

/-- Anonymizer.update_dict (anonymizer.py lines 251-296), the mapping part.
`names` stands for the concatenation of the directory names listed under
the given paths (the filesystem oracle, already filtered by `isdir`);
`noCheck` is the `no_check or self.yes_to_all` bypass; `sel` models the
interactive selection over the displayed candidates, returning a
subsequence of them, or `none` when the user answers `0` (the method then
returns with the dictionary untouched).  Names already present as keys are
filtered out before anything is assigned; newly accepted names receive
aliases continuing the numeric sequence from `len(self.dct.items())`. -/
def update_dict (d : ODict) (names : List String) (noCheck : Bool)
    (sel : List String → Option (List String)) : ODict :=
  let patients := names.filter (fun x => decide (x ∉ odKeys d))
  let chosen := if ¬patients.isEmpty ∧ ¬noCheck then sel patients else some patients
  match chosen with
  | none => d
  | some ps => odUpdate d (ps.zip (subjectIds d.length ps.length))

lemma subjectIds_length (last n : Nat) : (subjectIds last n).length = n := by
  simp [subjectIds]

lemma odKeys_append (d e : ODict) : odKeys (d ++ e) = odKeys d ++ odKeys e := by
  simp [odKeys]

lemma odUpdate_cons (d : ODict) (q : String × String) (qs : List (String × String)) :
    odUpdate d (q :: qs) = odUpdate (odSet d q.1 q.2) qs := rfl

lemma odKeys_odSet (d : ODict) (k v : String) :
    odKeys (odSet d k v) = if k ∈ odKeys d then odKeys d else odKeys d ++ [k] := by
  unfold odSet
  by_cases h : k ∈ odKeys d
  · rw [if_pos h, if_pos h]
    unfold odKeys
    rw [List.map_map]
    apply List.map_congr_left
    intro p _
    by_cases hp : p.1 = k <;> simp [hp]
  · rw [if_neg h, if_neg h]
    simp [odKeys]

lemma mem_odKeys_odSet (d : ODict) (k v a : String) :
    a ∈ odKeys (odSet d k v) ↔ a ∈ odKeys d ∨ a = k := by
  rw [odKeys_odSet]
  by_cases h : k ∈ odKeys d
  · rw [if_pos h]
    constructor
    · exact Or.inl
    · rintro (h1 | rfl)
      · exact h1
      · exact h
  · rw [if_neg h]
    simp

lemma odSet_length (d : ODict) (k v : String) :
    d.length ≤ (odSet d k v).length := by
  unfold odSet
  split <;> simp

lemma lookup_map_update_ne (ps : List (String × String)) (k v a : String) (h : a ≠ k) :
    (ps.map (fun p => if p.1 = k then (k, v) else p)).lookup a = ps.lookup a := by
  induction ps with
  | nil => rfl
  | cons p ps ih =>
    obtain ⟨pk, pv⟩ := p
    by_cases hp : pk = k
    · subst hp
      have hb : (a == pk) = false := beq_eq_false_iff_ne.mpr h
      simp [List.lookup_cons, hb, ih]
    · have hhead : (if ((pk, pv) : String × String).1 = k then (k, v) else (pk, pv)) = (pk, pv) := by
        simp [hp]
      rw [List.map_cons, hhead, List.lookup_cons, List.lookup_cons]
      cases hap : (a == pk) <;> simp [hap, ih]

lemma lookup_append_single_ne (ps : List (String × String)) (k v a : String) (h : a ≠ k) :
    (ps ++ [(k, v)]).lookup a = ps.lookup a := by
  have hb : (a == k) = false := beq_eq_false_iff_ne.mpr h
  induction ps with
  | nil => simp [List.lookup_cons, hb]
  | cons p ps ih =>
    obtain ⟨pk, pv⟩ := p
    rw [List.cons_append, List.lookup_cons, List.lookup_cons]
    cases hap : (a == pk) <;> simp [hap, ih]

lemma odSet_lookup_ne (d : ODict) (k v a : String) (h : a ≠ k) :
    (odSet d k v).lookup a = d.lookup a := by
  unfold odSet
  split
  · exact lookup_map_update_ne d k v a h
  · exact lookup_append_single_ne d k v a h

lemma odUpdate_lookup_of_ne (pairs : List (String × String)) (d : ODict) (a : String)
    (h : ∀ q ∈ pairs, q.1 ≠ a) :
    (odUpdate d pairs).lookup a = d.lookup a := by
  induction pairs generalizing d with
  | nil => rfl
  | cons q qs ih =>
    rw [odUpdate_cons, ih (odSet d q.1 q.2) (fun r hr => h r (List.mem_cons_of_mem q hr))]
    exact odSet_lookup_ne d q.1 q.2 a (Ne.symm (h q (List.mem_cons_self q qs)))

lemma odUpdate_length (pairs : List (String × String)) (d : ODict) :
    d.length ≤ (odUpdate d pairs).length := by
  induction pairs generalizing d with
  | nil => exact Nat.le_refl _
  | cons q qs ih =>
    rw [odUpdate_cons]
    exact Nat.le_trans (odSet_length d q.1 q.2) (ih (odSet d q.1 q.2))

lemma mem_odKeys_odUpdate (pairs : List (String × String)) (d : ODict) (a : String) :
    a ∈ odKeys (odUpdate d pairs) ↔ a ∈ odKeys d ∨ a ∈ pairs.map Prod.fst := by
  induction pairs generalizing d with
  | nil => simp [odUpdate]
  | cons q qs ih =>
    rw [odUpdate_cons, ih, mem_odKeys_odSet]
    simp [or_assoc]

lemma odUpdate_eq_append (pairs : List (String × String)) (d : ODict)
    (h1 : ∀ q ∈ pairs, q.1 ∉ odKeys d) (h2 : (pairs.map Prod.fst).Nodup) :
    odUpdate d pairs = d ++ pairs := by
  induction pairs generalizing d with
  | nil => simp [odUpdate]
  | cons q qs ih =>
    simp only [odUpdate, List.foldl_cons]
    have hset : odSet d q.1 q.2 = d ++ [q] := by
      unfold odSet
      rw [if_neg (h1 q (List.mem_cons_self q qs))]
    rw [show (List.foldl (fun acc p => odSet acc p.1 p.2) (odSet d q.1 q.2) qs)
          = odUpdate (odSet d q.1 q.2) qs from rfl, hset]
    rw [List.map_cons, List.nodup_cons] at h2
    rw [ih (d ++ [q]) ?_ h2.2]
    · simp
    · intro r hr
      rw [odKeys_append]
      simp only [List.mem_append, not_or]
      refine ⟨h1 r (List.mem_cons_of_mem q hr), ?_⟩
      simp only [odKeys, List.map_cons, List.map_nil, List.mem_singleton]
      intro hre
      exact h2.1 (hre ▸ List.mem_map_of_mem Prod.fst hr)

lemma update_dict_of_no_new (d : ODict) (names : List String)
    (sel : List String → Option (List String))
    (h : names.filter (fun x => decide (x ∉ odKeys d)) = []) :
    update_dict d names true sel = d := by
  simp only [update_dict, h]
  rfl

lemma update_dict_true_eq (d : ODict) (names : List String)
    (sel : List String → Option (List String)) :
    update_dict d names true sel
      = odUpdate d ((names.filter (fun x => decide (x ∉ odKeys d))).zip
          (subjectIds d.length (names.filter (fun x => decide (x ∉ odKeys d))).length)) := by
  simp only [update_dict]
  rw [if_neg (by simp)]

/-- C6: update_dict is append-only and monotone — it never decreases the
entry count, never changes the alias already assigned to an existing key
(names already present are filtered out before assignment), and running it
a second time with the same names (confirmation bypassed, as with
`yes_to_all`) leaves the dictionary exactly as it was, in particular adding
zero new entries. -/
theorem update_dict_monotone_idempotent :
    ∀ (d : ODict) (names : List String) (noCheck : Bool)
      (sel : List String → Option (List String)),
      (∀ l r, sel l = some r → r.Sublist l) →
      d.length ≤ (update_dict d names noCheck sel).length ∧
      (∀ a, a ∈ odKeys d → (update_dict d names noCheck sel).lookup a = d.lookup a) ∧
      update_dict (update_dict d names true sel) names true sel
        = update_dict d names true sel := by
  intro d names noCheck sel hsel
  refine ⟨?_, ?_, ?_⟩
  · simp only [update_dict]
    split
    · exact Nat.le_refl _
    · exact odUpdate_length _ _
  · intro a ha
    simp only [update_dict]
    split
    · rfl
    · rename_i ps heq
      have hps : ps.Sublist (names.filter (fun x => decide (x ∉ odKeys d))) := by
        by_cases hc : ¬(names.filter (fun x => decide (x ∉ odKeys d))).isEmpty = true
            ∧ ¬noCheck = true
        · rw [if_pos hc] at heq
          exact hsel _ _ heq
        · rw [if_neg hc] at heq
          cases heq
          exact List.Sublist.refl _
      apply odUpdate_lookup_of_ne
      intro q hq
      obtain ⟨q1, q2⟩ := q
      have hq1 : q1 ∈ ps := (List.of_mem_zip hq).1
      have hq1f := hps.subset hq1
      rw [List.mem_filter] at hq1f
      have hnot : q1 ∉ odKeys d := by simpa using hq1f.2
      intro hq1a
      have hq1a2 : q1 = a := hq1a
      exact hnot (hq1a2 ▸ ha)
  · have hkeys : ∀ x ∈ names, x ∈ odKeys (update_dict d names true sel) := by
      intro x hx
      rw [update_dict_true_eq, mem_odKeys_odUpdate]
      by_cases hxd : x ∈ odKeys d
      · exact Or.inl hxd
      · refine Or.inr ?_
        rw [List.map_fst_zip _ _ (by rw [subjectIds_length])]
        rw [List.mem_filter]
        exact ⟨hx, by simpa using hxd⟩
    have hfilter :
        names.filter (fun x => decide (x ∉ odKeys (update_dict d names true sel))) = [] := by
      rw [List.filter_eq_nil_iff]
      intro x hx
      simpa using hkeys x hx
    exact update_dict_of_no_new _ names sel hfilter

/-- C6 witness: the three conclusions of `update_dict_monotone_idempotent`
evaluated on the concrete store {A: Subject1} and candidate names [A, B],
with the accept-all selector. -/
theorem update_dict_monotone_idempotent_witness :
    (∀ l r : List String, some l = some r → r.Sublist l) ∧
    ([("A", "Subject1")] : ODict).length
      ≤ (update_dict [("A", "Subject1")] ["A", "B"] true (fun l => some l)).length ∧
    (update_dict [("A", "Subject1")] ["A", "B"] true (fun l => some l)).lookup "A"
      = ([("A", "Subject1")] : ODict).lookup "A" ∧
    update_dict (update_dict [("A", "Subject1")] ["A", "B"] true (fun l => some l))
        ["A", "B"] true (fun l => some l)
      = update_dict [("A", "Subject1")] ["A", "B"] true (fun l => some l) := by
  have hsel : ∀ l r : List String, some l = some r → r.Sublist l := by
    intro l r hh
    cases hh
    exact List.Sublist.refl _
  have h := update_dict_monotone_idempotent [("A", "Subject1")] ["A", "B"] true
    (fun l => some l) hsel
  exact ⟨hsel, h.1, h.2.1 "A" (by decide), h.2.2⟩

/-- Anonymizer.create_anon_dict (anonymizer.py lines 208-249), the
directory-listing branch: `patients` is the filesystem oracle for
`[x for x in os.listdir(pts) if os.path.isdir(x)]` (directory entries,
hence pairwise distinct), aliases are `Subject1..SubjectN`, the dictionary
is `OrderedDict(zip(patients, ids))`, and the method prints the mapping
count and returns `True` (the first component). -/
def create_anon_dict (patients : List String) : Bool × ODict :=
  (true, odUpdate [] (patients.zip (subjectIds 0 patients.length)))

/-- C8 counterexample: on an empty candidate set, create_anon_dict does not
fail — it succeeds (the Python method returns True, so `__init__` does not
exit) and installs an empty mapping, reporting zero mappings created. -/
theorem create_anon_dict_empty_succeeds :
    (create_anon_dict []).1 = true ∧ (create_anon_dict []).2 = [] := by
  exact ⟨rfl, rfl⟩

/-- C8 amended: creating a fresh alias store from distinct candidate patient
names assigns aliases Subject1..SubjectN in the iteration order of the
candidates; when the candidate set is empty the creation succeeds with an
empty mapping (it does not fail). -/
theorem create_anon_dict_assigns_in_order :
    ∀ names : List String, names.Nodup →
      create_anon_dict names = (true, names.zip (subjectIds 0 names.length)) := by
  intro names h
  unfold create_anon_dict
  have hzip : odUpdate [] (names.zip (subjectIds 0 names.length))
      = [] ++ names.zip (subjectIds 0 names.length) := by
    apply odUpdate_eq_append
    · intro q hq
      simp [odKeys]
    · rw [List.map_fst_zip _ _ (by rw [subjectIds_length])]
      exact h
  rw [hzip]
  rfl

/-- C8 witness: two distinct candidates receive Subject1 and Subject2 in
order. -/
theorem create_anon_dict_assigns_in_order_witness :
    (["Smith J", "Doe J"] : List String).Nodup ∧
    create_anon_dict ["Smith J", "Doe J"]
      = (true, [("Smith J", "Subject1"), ("Doe J", "Subject2")]) := by
  refine ⟨by decide, ?_⟩
  rw [create_anon_dict_assigns_in_order ["Smith J", "Doe J"] (by decide)]
  rfl

/-!
## AliasStore persistence (claim C7)

The run persists `self.dct` with `pkl.dump` into the
anonymizer_dictionary.pkl file (anonymizer.py line 154) and the
constructor loads it back with `pkl.load` (lines 57-66), raising on an
invalid path or an incompatible payload.  `pickle` is an external library
whose code is not part of this repository, so the serialized format is
modelled from the spec: an opaque serialized ordered mapping of
string-to-string pairs, here a flat token list; loading fails (the
constructor raises `TypeError: Incompatible type`) on a malformed source.
-/

/-- Modelled from the spec: `persist(destination)` flattens the ordered
mapping into the serialized form, entry by entry, in insertion order. -/
def persistStore : ODict → List String
  | [] => []
  | p :: ps => p.1 :: p.2 :: persistStore ps

/-- Modelled from the spec: `load(source)` parses the serialized form back
into an ordered mapping, returning `none` (the `TypeError` of the loading
path) when the payload is malformed. -/
def loadStore : List String → Option ODict
  | [] => some []
  | [_] => none
  | k :: v :: rest => (loadStore rest).map (fun d => (k, v) :: d)

/-- C7: persisting an alias mapping and loading it back succeeds and yields
a mapping equal to the original in both content and insertion order. -/
theorem loadStore_persistStore : ∀ d : ODict, loadStore (persistStore d) = some d := by
  intro d
  induction d with
  | nil => rfl
  | cons p ps ih =>
    obtain ⟨k, v⟩ := p
    simp [persistStore, loadStore, ih]

/-!
## Anonymizer: image anonymization and the similarity guard (claims C1, C2)

`anonymize_dicom` (anonymizer.py lines 158-191) reads one DICOM image,
optionally compares the patient-name field embedded in the image against
`original` using `difflib.SequenceMatcher(None, a, b).ratio()`, then
rewrites the name field and saves a copy with an `_anon` suffix.  `difflib`
is Python standard-library code external to the repository; its documented
ratio on junk-free inputs is `2*M/T`, where `T` is the total length of the
two strings and `M` is the total size of the matching blocks obtained by
repeatedly taking, among all maximal matching blocks of a window, the one
starting earliest in `a` and then earliest in `b`.  That algorithm is
embedded below (the strings compared here are far too short for the
autojunk heuristic to matter); Python float arithmetic is modelled by
`Rat`, and the inputs compared in the theorems are far from the 0.7
threshold.

The `dicom` library is modelled by the `DicomImage` oracle: the
patient-name field that `dicom.read_file` would expose, and whether
`ds.save_as` raises `ValueError`.
-/

/-- Length of the longest common prefix of two character lists. -/
def commonPrefixLen : List Char → List Char → Nat
  | a :: as, b :: bs => if a = b then commonPrefixLen as bs + 1 else 0
  | _, _ => 0

/-- SequenceMatcher.find_longest_match over whole windows: a triple
`(i, j, k)` with `k` maximal such that `a[i:i+k] == b[j:j+k]`, preferring
the smallest `i` and then the smallest `j` (the difflib tie-break). -/
def longestMatch (a b : List Char) : Nat × Nat × Nat :=
  (((List.range (a.length + 1)).map (fun i =>
    (List.range (b.length + 1)).map (fun j =>
      (i, j, commonPrefixLen (a.drop i) (b.drop j))))).flatten).foldl
    (fun best p => if best.2.2 < p.2.2 then p else best) (0, 0, 0)

/-- Total size of the SequenceMatcher matching blocks
(`get_matching_blocks`): recurse on both sides of the longest match.
Fuelled recursion; the fuel `a.length + b.length` is always sufficient
because the recursion strictly shrinks both windows. -/
def matchingTotal : Nat → List Char → List Char → Nat
  | 0, _, _ => 0
  | fuel + 1, a, b =>
    let m := longestMatch a b
    if m.2.2 = 0 then 0
    else
      matchingTotal fuel (a.take m.1) (b.take m.2.1) + m.2.2 +
        matchingTotal fuel (a.drop (m.1 + m.2.2)) (b.drop (m.2.1 + m.2.2))

/-- difflib `SequenceMatcher(None, sa, sb).ratio()`, the value `2*M/T`, as
a rational. -/
def simScore (sa sb : String) : Rat :=
  let a := sa.data
  let b := sb.data
  2 * (matchingTotal (a.length + b.length) a b : Rat) / ((a.length + b.length : Nat) : Rat)

/-- Python exceptions raised by the embedded anonymizer code paths. -/
inductive PyErr
  | typeError
  | notImplementedError
  | keyError
  | osError
deriving DecidableEq

/-- Anonymizer flags fixed at construction: `similarity_check`, `verbose`,
`log`, and the 0.7 string-compare `threshold` (anonymizer.py line 48). -/
structure AnonCfg where
  similar : Bool
  verbose : Bool
  log : Bool
  threshold : Rat

/-- Mutable per-run state of the Anonymizer: the `attempted` and
`processed` counters, the `failed` path list and the `log_dict` mapping. -/
structure AnonState where
  attempted : Nat
  processed : Nat
  failed : List String
  logDict : ODict
deriving DecidableEq

/-- Oracle for one DICOM image: its path, the patient-name field that
`dicom.read_file` exposes, and whether `ds.save_as` succeeds (false means
it raises ValueError). -/
structure DicomImage where
  path : String
  patientsName : String
  saveOk : Bool
deriving DecidableEq

/-- Anonymizer.anonymize_dicom (anonymizer.py lines 158-191).  The
`attempted` counter always advances; with the similarity check enabled the
ratio between the embedded name and `original` (both lowercased) is
compared against the threshold and the method raises TypeError when the
ratio is ABOVE the threshold (the comparison written in the source);
without an `original` it raises NotImplementedError.  Saving the `_anon`
copy may raise ValueError, which is caught and recorded in `failed`; the
`processed` counter and the log-dict update happen only under `verbose`,
and a repeated identical alias raises an uncaught KeyError there. -/
def anonymize_dicom (cfg : AnonCfg) (st0 : AnonState) (dcm : DicomImage)
    (aliasName : String) (original : Option String) : Except PyErr AnonState :=
  let st := { st0 with attempted := st0.attempted + 1 }
  let gate : Except PyErr Unit :=
    if cfg.similar then
      match original with
      | some orig =>
        if cfg.threshold < simScore (pyLower dcm.patientsName) (pyLower orig) then
          Except.error PyErr.typeError
        else Except.ok ()
      | none => Except.error PyErr.notImplementedError
    else Except.ok ()
  match gate with
  | Except.error e => Except.error e
  | Except.ok _ =>
    let old := dcm.patientsName
    if dcm.saveOk then
      if cfg.verbose then
        if cfg.log then
          match st.logDict.lookup old with
          | none =>
            Except.ok { st with logDict := odSet st.logDict old aliasName,
                                processed := st.processed + 1 }
          | some a =>
            if a = aliasName then Except.error PyErr.keyError
            else Except.ok { st with processed := st.processed + 1 }
        else Except.ok { st with processed := st.processed + 1 }
      else Except.ok st
    else Except.ok { st with failed := st.failed ++ [dcm.path] }

/-- Anonymizer.anonymize_patient (anonymizer.py lines 193-206): takes the
component after the last slash as the patient name, looks its alias up in
the dictionary (a miss is an uncaught KeyError), disables the original-name
argument when the similarity check is off, and runs `anonymize_dicom` over
every image found under the patient directory (`find_dcm` modelled by the
`images` oracle).  The loop has no exception handler, so an error from any
image aborts the remaining ones. -/
def anonymize_patient (cfg : AnonCfg) (st : AnonState) (dct : ODict)
    (patientName : String) (images : List DicomImage) : Except PyErr AnonState :=
  let pname := pyBasename patientName
  match dct.lookup pname with
  | none => Except.error PyErr.keyError
  | some patientAlias =>
    let original : Option String := if cfg.similar then some pname else none
    images.foldlM (fun s d => anonymize_dicom cfg s d patientAlias original) st

set_option maxRecDepth 8000 in
lemma matchingTotal_john_jon :
    matchingTotal 15 "john doe".data "jon doe".data = 7 := by decide

set_option maxRecDepth 8000 in
lemma matchingTotal_john_jane :
    matchingTotal 18 "john doe".data "jane smith".data = 2 := by decide

lemma simScore_john_jon : simScore "john doe" "jon doe" = 14 / 15 := by
  show 2 * ((matchingTotal 15 "john doe".data "jon doe".data : Nat) : Rat)
      / ((15 : Nat) : Rat) = 14 / 15
  rw [matchingTotal_john_jon]
  norm_num

lemma simScore_john_jane : simScore "john doe" "jane smith" = 2 / 9 := by
  show 2 * ((matchingTotal 18 "john doe".data "jane smith".data : Nat) : Rat)
      / ((18 : Nat) : Rat) = 2 / 9
  rw [matchingTotal_john_jane]
  norm_num

/-- C1 (code bug): with the similarity check enabled, the comparison in
anonymize_dicom is inverted.  "John Doe" and "Jon Doe" are similar (ratio
14/15, above the 0.7 threshold), yet anonymize_dicom raises the
string-compare TypeError for them instead of proceeding; "John Doe" and
"Jane Smith" are dissimilar (ratio 2/9, not above the threshold), yet
anonymize_dicom proceeds, counts the image as attempted and saves the
aliased copy, instead of failing closed. -/
theorem anonymize_dicom_inverted_similarity_gate :
    (7 / 10 : Rat) < simScore (pyLower "John Doe") (pyLower "Jon Doe") ∧
    anonymize_dicom ⟨true, false, true, 7 / 10⟩ ⟨0, 0, [], []⟩
        ⟨"PD/John Doe/i1.dcm", "John Doe", true⟩ "Subject1" (some "Jon Doe")
      = Except.error PyErr.typeError ∧
    simScore (pyLower "John Doe") (pyLower "Jane Smith") ≤ 7 / 10 ∧
    anonymize_dicom ⟨true, false, true, 7 / 10⟩ ⟨0, 0, [], []⟩
        ⟨"PD/John Doe/i1.dcm", "John Doe", true⟩ "Subject1" (some "Jane Smith")
      = Except.ok ⟨1, 0, [], []⟩ := by
  have e1 : pyLower "John Doe" = "john doe" := by decide
  have e2 : pyLower "Jon Doe" = "jon doe" := by decide
  have e3 : pyLower "Jane Smith" = "jane smith" := by decide
  have hgt : (7 / 10 : Rat) < simScore (pyLower "John Doe") (pyLower "Jon Doe") := by
    rw [e1, e2, simScore_john_jon]
    norm_num
  have hle : simScore (pyLower "John Doe") (pyLower "Jane Smith") ≤ 7 / 10 := by
    rw [e1, e3, simScore_john_jane]
    norm_num
  refine ⟨hgt, ?_, hle, ?_⟩
  · simp [anonymize_dicom, hgt]
  · simp [anonymize_dicom, not_lt.mpr hle]

set_option maxRecDepth 4000 in
lemma matchingTotal_pat : matchingTotal 6 "pat".data "pat".data = 3 := by decide

lemma simScore_pat : simScore "pat" "pat" = 1 := by
  show 2 * ((matchingTotal 6 "pat".data "pat".data : Nat) : Rat)
      / ((6 : Nat) : Rat) = 1
  rw [matchingTotal_pat]
  norm_num

lemma threshold_lt_simScore_pat :
    (7 / 10 : Rat) < simScore (pyLower "pat") (pyLower (pyBasename "PD/pat")) := by
  have e1 : pyLower "pat" = "pat" := by decide
  have e2 : pyBasename "PD/pat" = "pat" := by decide
  rw [e2, e1, simScore_pat]
  norm_num

/-- C2 counterexample: a similarity-guard failure on the first image of a
two-image batch is not caught inside the per-image step — it propagates out
of anonymize_dicom and aborts anonymize_patient, so the sibling image is
never processed and nothing is recorded in the failure list. -/
theorem anonymize_patient_mismatch_aborts_batch :
    anonymize_patient ⟨true, false, true, 7 / 10⟩ ⟨0, 0, [], []⟩ [("pat", "Subject1")]
        "PD/pat"
        [⟨"PD/pat/a.dcm", "pat", true⟩, ⟨"PD/pat/b.dcm", "pat", true⟩]
      = Except.error PyErr.typeError := by
  have hlk : ([("pat", "Subject1")] : ODict).lookup (pyBasename "PD/pat")
      = some "Subject1" := by decide
  simp [anonymize_patient, hlk, anonymize_dicom, threshold_lt_simScore_pat]
  rfl

lemma anonymize_dicom_no_gate (cfg : AnonCfg) (st : AnonState) (d : DicomImage)
    (aliasName : String) (hsim : cfg.similar = false) (hv : cfg.verbose = false) :
    anonymize_dicom cfg st d aliasName none
      = Except.ok { st with attempted := st.attempted + 1,
                            failed := if d.saveOk then st.failed
                                      else st.failed ++ [d.path] } := by
  cases hs : d.saveOk <;> simp [anonymize_dicom, hsim, hv, hs]

lemma anonymize_dicom_gate_error (cfg : AnonCfg) (st : AnonState) (d : DicomImage)
    (aliasName orig : String) (hsim : cfg.similar = true)
    (hgt : cfg.threshold < simScore (pyLower d.patientsName) (pyLower orig)) :
    anonymize_dicom cfg st d aliasName (some orig) = Except.error PyErr.typeError := by
  simp [anonymize_dicom, hsim, hgt]

lemma foldl_anonymize_no_gate (cfg : AnonCfg) (aliasName : String)
    (hsim : cfg.similar = false) (hv : cfg.verbose = false) :
    ∀ (imgs : List DicomImage) (st : AnonState),
      List.foldlM (fun s d => anonymize_dicom cfg s d aliasName none) st imgs
        = Except.ok ⟨st.attempted + imgs.length, st.processed,
            st.failed ++ (imgs.filter (fun i => !i.saveOk)).map DicomImage.path,
            st.logDict⟩ := by
  intro imgs
  induction imgs with
  | nil =>
    intro st
    simp only [List.foldlM, List.length_nil, Nat.add_zero, List.filter_nil,
      List.map_nil, List.append_nil]
    rfl
  | cons d ds ih =>
    intro st
    rw [List.foldlM_cons, anonymize_dicom_no_gate cfg st d aliasName hsim hv]
    show List.foldlM (fun s d => anonymize_dicom cfg s d aliasName none) _ ds = _
    rw [ih]
    cases hs : d.saveOk <;>
      simp [hs, List.filter_cons, Nat.add_assoc, Nat.add_comm 1 ds.length]

/-- C2 amended: inside a per-patient batch, only a ValueError raised while
saving an image is caught inside the per-image step — it is recorded in the
failure list, the attempted counter still advances, and the remaining
sibling images are all processed; but a similarity-check failure is NOT
caught: it propagates out of anonymize_dicom and aborts the processing of
all remaining images of the batch. -/
theorem anonymize_patient_propagation :
    (∀ (cfg : AnonCfg) (st : AnonState) (dct : ODict) (pn pa : String)
        (imgs : List DicomImage),
        cfg.similar = false → cfg.verbose = false →
        dct.lookup (pyBasename pn) = some pa →
        anonymize_patient cfg st dct pn imgs
          = Except.ok ⟨st.attempted + imgs.length, st.processed,
              st.failed ++ (imgs.filter (fun i => !i.saveOk)).map DicomImage.path,
              st.logDict⟩) ∧
    (∀ (cfg : AnonCfg) (st : AnonState) (dct : ODict) (pn pa : String)
        (d : DicomImage) (post : List DicomImage),
        cfg.similar = true →
        dct.lookup (pyBasename pn) = some pa →
        cfg.threshold < simScore (pyLower d.patientsName) (pyLower (pyBasename pn)) →
        anonymize_patient cfg st dct pn (d :: post) = Except.error PyErr.typeError) := by
  constructor
  · intro cfg st dct pn pa imgs hsim hv hlk
    simp only [anonymize_patient, hlk]
    rw [if_neg (by simp [hsim])]
    exact foldl_anonymize_no_gate cfg pa hsim hv imgs st
  · intro cfg st dct pn pa d post hsim hlk hgt
    simp only [anonymize_patient, hlk]
    rw [if_pos (by simp [hsim])]
    rw [List.foldlM_cons, anonymize_dicom_gate_error cfg _ d pa (pyBasename pn) hsim hgt]
    rfl

/-- C2 witness: on a two-image batch with the similarity check off, a save
failure on the second image is recorded while both images are attempted;
on a two-image batch with the similarity check on and matching names, the
(inverted) guard error aborts the whole batch. -/
theorem anonymize_patient_propagation_witness :
    anonymize_patient ⟨false, false, true, 7 / 10⟩ ⟨0, 0, [], []⟩ [("pat", "Subject1")]
        "PD/pat" [⟨"PD/pat/a.dcm", "X", true⟩, ⟨"PD/pat/b.dcm", "Y", false⟩]
      = Except.ok ⟨2, 0, ["PD/pat/b.dcm"], []⟩ ∧
    anonymize_patient ⟨true, false, true, 7 / 10⟩ ⟨0, 0, [], []⟩ [("pat", "Subject1")]
        "PD/pat" [⟨"PD/pat/c.dcm", "pat", true⟩, ⟨"PD/pat/d.dcm", "pat", true⟩]
      = Except.error PyErr.typeError := by
  constructor
  · exact anonymize_patient_propagation.1 ⟨false, false, true, 7 / 10⟩ ⟨0, 0, [], []⟩
      [("pat", "Subject1")] "PD/pat" "Subject1"
      [⟨"PD/pat/a.dcm", "X", true⟩, ⟨"PD/pat/b.dcm", "Y", false⟩] rfl rfl (by decide)
  · exact anonymize_patient_propagation.2 ⟨true, false, true, 7 / 10⟩ ⟨0, 0, [], []⟩
      [("pat", "Subject1")] "PD/pat" "Subject1" ⟨"PD/pat/c.dcm", "pat", true⟩
      [⟨"PD/pat/d.dcm", "pat", true⟩] rfl (by decide) threshold_lt_simScore_pat

/-!
## Conversion-log anonymization (claim C5)

Anonymizer.anonymize_log (anonymizer.py lines 411-448): after parsing the
patient log into `pat_dct`, it scans the conversion log line by line.  A
line containing `PATIENT INFO` arms `expect_patient`; while armed, every
dictionary name contained in the current (possibly already rewritten) line
triggers `line.replace(name[:-1], pat_dct[name])` — note the `[:-1]` and
that `str.replace` rewrites every occurrence in the line — and disarms the
flag (the scan over the remaining names still continues); each resulting
line is written to the `_anon` output.  The two missing-file OSError
guards precede this pass and do not affect the rewriting.
-/

/-- Inner loop of anonymize_log over the dictionary entries for one armed
line (`for name in pat_dct.keys(): ...`); the Boolean is `expect_patient`. -/
def logScanLine (dct : ODict) (line : String) : String × Bool :=
  dct.foldl (fun acc nv =>
    if pyIn nv.1 acc.1 then (pyReplace acc.1 (pyDropLast nv.1) nv.2, false) else acc)
    (line, true)

/-- Line loop of Anonymizer.anonymize_log; the Boolean is `expect_patient`. -/
def anonLogGo (dct : ODict) : Bool → List String → List String
  | _, [] => []
  | expect, l :: ls =>
    let armed := if pyIn "PATIENT INFO" l then true else expect
    if armed then
      let r := logScanLine dct l
      r.1 :: anonLogGo dct r.2 ls
    else
      l :: anonLogGo dct armed ls

/-- Anonymizer.anonymize_log, the rewriting pass: `dct` is the parsed
patient log, `lines` the conversion log, and the result the lines of the
`_anon` output file. -/
def anonymize_log (dct : ODict) (lines : List String) : List String :=
  anonLogGo dct false lines

/-- C5 counterexample: with the known name "John Doe" aliased to
"Subject1", the line "name: John Doe" after the sentinel is rewritten with
`replace(name[:-1], alias)`, producing "name: Subject1e" — the name is not
replaced by the alias, a trailing character of it survives. -/
theorem anonymize_log_leaves_trailing_char :
    anonymize_log [("John Doe", "Subject1")] ["PATIENT INFO", "name: John Doe"]
      = ["PATIENT INFO", "name: Subject1e"] ∧
    anonymize_log [("John Doe", "Subject1")] ["PATIENT INFO", "name: John Doe"]
      ≠ ["PATIENT INFO", "name: Subject1"] := by
  constructor <;> decide

lemma logScanLine_single_nomatch (name al l : String) (h : pyIn name l = false) :
    logScanLine [(name, al)] l = (l, true) := by
  simp [logScanLine, h]

lemma logScanLine_single_match (name al l : String) (h : pyIn name l = true) :
    logScanLine [(name, al)] l = (pyReplace l (pyDropLast name) al, false) := by
  simp [logScanLine, h]

lemma anonLogGo_false_app (dct : ODict) (ls rest : List String)
    (h : ∀ l ∈ ls, pyIn "PATIENT INFO" l = false) :
    anonLogGo dct false (ls ++ rest) = ls ++ anonLogGo dct false rest := by
  induction ls with
  | nil => rfl
  | cons l ls ih =>
    have hl := h l (List.mem_cons_self _ _)
    simp only [List.cons_append, anonLogGo, hl]
    simp [ih (fun x hx => h x (List.mem_cons_of_mem _ hx))]
  
lemma anonLogGo_true_nomatch (name al : String) (ls rest : List String)
    (h : ∀ l ∈ ls, pyIn name l = false) :
    anonLogGo [(name, al)] true (ls ++ rest) = ls ++ anonLogGo [(name, al)] true rest := by
  induction ls with
  | nil => rfl
  | cons l ls ih =>
    have hl := h l (List.mem_cons_self _ _)
    simp only [List.cons_append, anonLogGo]
    rw [show (if pyIn "PATIENT INFO" l then true else true) = true by simp]
    simp only [if_true]
    rw [logScanLine_single_nomatch name al l hl]
    simp [ih (fun x hx => h x (List.mem_cons_of_mem _ hx))]

/-- C5 amended: within each block opened by a PATIENT INFO sentinel, the
first subsequent line containing a known name has every occurrence of that
name MINUS ITS FINAL CHARACTER replaced by the alias (so a residual final
character of the name survives); scanning then stops for that block, so
later lines are written out unchanged even if they contain the name, and
lines outside any block are always written unchanged. -/
theorem anonymize_log_block_rewrite :
    ∀ (name al : String) (pre blk post : List String) (sent hit : String),
      (∀ l ∈ pre, pyIn "PATIENT INFO" l = false) →
      pyIn "PATIENT INFO" sent = true →
      pyIn name sent = false →
      (∀ l ∈ blk, pyIn name l = false) →
      pyIn name hit = true →
      (∀ l ∈ post, pyIn "PATIENT INFO" l = false) →
      anonymize_log [(name, al)] (pre ++ sent :: (blk ++ hit :: post))
        = pre ++ sent :: (blk ++ pyReplace hit (pyDropLast name) al :: post) := by
  intro name al pre blk post sent hit h1 h2 h3 h4 h5 h6
  unfold anonymize_log
  rw [anonLogGo_false_app _ _ _ h1]
  congr 1
  simp only [anonLogGo, h2, if_true]
  rw [logScanLine_single_nomatch name al sent h3]
  simp only
  congr 1
  rw [anonLogGo_true_nomatch name al blk _ h4]
  congr 1
  simp only [anonLogGo]
  rw [show (if pyIn "PATIENT INFO" hit then true else true) = true by simp]
  simp only [if_true]
  rw [logScanLine_single_match name al hit h5]
  simp only
  congr 1
  have hpost := anonLogGo_false_app [(name, al)] post [] h6
  simpa [anonLogGo] using hpost

/-- C5 witness: a full block — header line before the sentinel, a
non-matching block line, the matching name line, and a later line that
still contains the name but is left untouched because the block scan has
stopped. -/
theorem anonymize_log_block_rewrite_witness :
    anonymize_log [("John Doe", "Subject1")]
        ["header", "== PATIENT INFO ==", "id: 7", "name: John Doe", "seen John Doe before"]
      = ["header", "== PATIENT INFO ==", "id: 7", "name: Subject1e",
         "seen John Doe before"] := by
  have h := anonymize_log_block_rewrite "John Doe" "Subject1" ["header"] ["id: 7"]
    ["seen John Doe before"] "== PATIENT INFO ==" "name: John Doe"
    (by decide) (by decide) (by decide) (by decide) (by decide) (by decide)
  exact h.trans (by decide)

/-!
## Cleanup of non-anonymized images (claim C9)

Anonymizer.cleanup (anonymizer.py lines 347-382).  String branch: run
`find_dcm(pts)` (which raises OSError for a nonexistent path) and delete
every found DICOM image whose final five characters are not `_anon`.  List
branch (lines 357-372): for each element `p` the code evaluates
`os.path.exists(pts)` — on the whole LIST `pts`, not on `p`, although the
error message formats `p` — and `os.stat` of a list raises TypeError in
both Python 2 and Python 3, which `os.path.exists` does not catch; so the
branch raises before any deletion as soon as the list is nonempty.  The
walk of `find_dcm` (libmagic content sniffing) is the `findDcm` oracle and
path existence the `fsExists` oracle; the result is the list of deleted
image paths, or the exception.
-/

/-- Python slice `x[-5:]`. -/
def pyLastFive (s : String) : String := ⟨(s.data.reverse.take 5).reverse⟩

/-- A path or a list of paths: the two accepted shapes of `pts`. -/
inductive Scope
  | str (p : String)
  | paths (ps : List String)

/-- Anonymizer.cleanup, translated branch by branch (the empty list is the
degenerate case in which the per-path loop never runs). -/
def cleanup (fsExists : String → Bool) (findDcm : String → List String) :
    Scope → Except PyErr (List String)
  | Scope.str p =>
    if fsExists p then
      Except.ok ((findDcm p).filter (fun x => decide (pyLastFive x ≠ "_anon")))
    else Except.error PyErr.osError
  | Scope.paths [] => Except.ok []
  | Scope.paths (_ :: _) => Except.error PyErr.typeError

/-- C9 (code bug): called on a list of paths, cleanup raises TypeError
before deleting anything, because `os.path.exists` is applied to the whole
list instead of the current element (the sibling check in `anonymize` and
the error message itself show the intent); the very same directory passed
as a single string scope deletes exactly the DICOM images without the
`_anon` suffix. -/
theorem cleanup_list_scope_raises :
    cleanup (fun p => p == "d")
        (fun p => if p == "d" then ["d/i1.dcm", "d/i2.dcm_anon"] else [])
        (Scope.paths ["d"])
      = Except.error PyErr.typeError ∧
    cleanup (fun p => p == "d")
        (fun p => if p == "d" then ["d/i1.dcm", "d/i2.dcm_anon"] else [])
        (Scope.str "d")
      = Except.ok ["d/i1.dcm"] := by
  exact ⟨rfl, rfl⟩

/-!
## Working-directory restoration by the constructors (claim C10)

Anonymizer.__init__ stores `curr = os.getcwd()` (anonymizer.py line 54)
before any directory change and ends with `os.chdir(curr)` (line 156);
Converter.__init__ does the same (converter.py lines 47 and 71).  The
embedding below projects both constructors onto their effect on the
process working directory along the non-raising control flow: every
`os.chdir` of the source is a step and the branch structure is preserved;
filesystem reads do not move the cwd.
-/

/-- Paths of a scope, after the `if isinstance(pts, str): pts = [pts]`
normalization of update_dict. -/
def scopeList : Scope → List String
  | Scope.str p => [p]
  | Scope.paths ps => ps

/-- Effect on the cwd of Anonymizer.update_dict: `os.chdir(pt)` for every
path of the argument (line 265), never restored. -/
def update_dict_cwd (pts : List String) (cwd : String) : String :=
  pts.foldl (fun _ pt => pt) cwd

/-- Effect on the cwd of Anonymizer.create_anon_dict (lines 215-248):
`src_dir = os.getcwd()`, chdir into the first path, back to `src_dir`,
the update_dict calls for the remaining paths, and the final
`os.chdir(src_dir)` of line 248. -/
def create_anon_dict_cwd (pts : Scope) (cwd : String) : String :=
  let srcDir := cwd
  match pts with
  | Scope.paths [] => srcDir
  | Scope.paths (p :: rest) =>
    let _afterFirst := p
    let backAtSrc := srcDir
    let _afterUpdates := rest.foldl (fun c pt => update_dict_cwd [pt] c) backAtSrc
    srcDir
  | Scope.str p =>
    let _inside := p
    srcDir

/-- Effect on the cwd of Anonymizer.anonymize (lines 298-345): chdir into
each path of a list scope, or into the directory of a string scope. -/
def anonymize_cwd (pts : Scope) (cwd : String) : String :=
  match pts with
  | Scope.paths ps => ps.foldl (fun _ p => p) cwd
  | Scope.str p => p

/-- Effect on the cwd of Anonymizer.__init__ (lines 53-156): save `curr`;
resolve the dictionary (fresh creation, or update of a loaded or provided
one); on `run`, anonymize and — when logging proceeds — chdir into the
report directory; and always `os.chdir(curr)` as the last statement. -/
def anonymizer_init_cwd (pathsArg : Scope) (created run proceed : Bool)
    (fileDir : String) (c0 : String) : String :=
  let curr := c0
  let afterDict := if created then create_anon_dict_cwd pathsArg c0
                   else update_dict_cwd (scopeList pathsArg) c0
  let _afterRun := if run then
      (let a := anonymize_cwd pathsArg afterDict
       if proceed then fileDir else a)
    else afterDict
  curr

/-- Effect on the cwd of Converter.__init__ (converter.py lines 47-71):
save `curr`; on run, chdir to the directory of a single image (line 66) or
run convert_all, whose convert_patient chdirs into every patient directory
(line 457); restore `curr` at the end (line 71). -/
def converter_init_cwd (run isSingleDicom : Bool) (imageDir : String)
    (patientDirs : List String) (c0 : String) : String :=
  let curr := c0
  let _afterRun := if run then
      (if isSingleDicom then imageDir
       else patientDirs.foldl (fun _ p => p) c0)
    else c0
  curr

/-- C10: when the Anonymizer constructor (and likewise the Converter
constructor) completes without raising, the process working directory ends
restored to the value it had on entry, whichever internal steps
(dictionary creation, renaming, logging, conversion) changed directory in
between. -/
theorem init_restores_cwd :
    (∀ (pathsArg : Scope) (created run proceed : Bool) (fileDir c0 : String),
      anonymizer_init_cwd pathsArg created run proceed fileDir c0 = c0) ∧
    (∀ (run isSingleDicom : Bool) (imageDir : String) (patientDirs : List String)
      (c0 : String),
      converter_init_cwd run isSingleDicom imageDir patientDirs c0 = c0) :=
  ⟨fun _ _ _ _ _ _ => rfl, fun _ _ _ _ _ => rfl⟩
